import Mathlib

/-!
Verification of the delegation/presentation layer of `src/main.py`
(the `chat` endpoint of the creative-marketing multi-agent coordinator).

The embedding models one turn of the endpoint: the event stream delivered by
`client.receive_response()` is a list of messages; each message is either an
`AssistantMessage` (with its `parent_tool_use_id` link and `content` block
list) or some other message kind, which the loop skips.  The loop state is the
list `main_agent_buffer` of buffered top-level text fragments; the produced
value is the ordered list of `yield`ed strings.
-/

/-- One content block of an assistant message, as `main.py` inspects it:
`TextBlock` instances carry a `text` payload, `ToolUseBlock` instances carry a
tool `name` and an `input` mapping (modelled as an association list of string
keys to string values), and every other block kind is only ever skipped. -/
inductive Block where
  | textBlock (text : String)
  | toolUse (name : String) (input : List (String × String))
  | otherBlock

/-- One event of the stream consumed by the `async for` loop: an
`AssistantMessage` carrying `parent_tool_use_id` and `content`, or any other
message kind (`SystemMessage`, `UserMessage`, `ResultMessage`, ...), which
line 352 of `main.py` skips with `continue`. -/
inductive Message where
  | assistant (parent_tool_use_id : Option String) (content : List Block)
  | other

/-- Python `dict.get(key, dflt)` on the modelled tool-input mapping. -/
def dict_get (input : List (String × String)) (key dflt : String) : String :=
  match input with
  | [] => dflt
  | (k, v) :: rest => if k = key then v else dict_get rest key dflt

/-- Python `"".join(parts)`. -/
def joinAll : List String → String
  | [] => ""
  | s :: rest => s ++ joinAll rest

/-- Python `chr(10).join(parts)`: the newline-separated join used to build the
delegation block. -/
def joinNL : List String → String
  | [] => ""
  | [s] => s
  | s :: rest => s ++ "\n" ++ joinNL rest

/-- Drop leading whitespace characters of a character list. -/
def dropWhileWS : List Char → List Char
  | [] => []
  | c :: rest => if c.isWhitespace then dropWhileWS rest else c :: rest

/-- Python `str.strip()`: remove whitespace from both ends of a string. -/
def strip (s : String) : String :=
  String.mk ((dropWhileWS (dropWhileWS s.data).reverse).reverse)

/-- One step of the `task_info` scan of `main.py` lines 360-366: a
`ToolUseBlock` named `Task` overwrites the accumulator with its
`(subagent_type, description, prompt)` payload (with the defaults
`"unknown"`, `""`, `""` of the three `dict.get` calls); every other block
leaves the accumulator unchanged. -/
def task_step (acc : Option (String × String × String)) (b : Block) :
    Option (String × String × String) :=
  match b with
  | Block.toolUse n input =>
      if n = "Task" then
        some (dict_get input "subagent_type" "unknown",
              dict_get input "description" "",
              dict_get input "prompt" "")
      else acc
  | _ => acc

/-- The `task_info` scan of `main.py` lines 359-366: walk the content blocks
in order, a later `Task` block overwriting an earlier one. -/
def task_info (content : List Block) : Option (String × String × String) :=
  content.foldl task_step none

/-- The delegation block built at `main.py` lines 370-384: the stripped
buffered text (only if non-empty), then the `Delegating to:` line, then (only
if the prompt string is non-empty) the prompt part, joined by newlines and
fenced by triple backticks. -/
def delegation_block (buf : List String) (subagent description prompt : String) : String :=
  let buffered := strip (joinAll buf)
  let parts : List String :=
    (if buffered ≠ "" then ["💭 " ++ buffered] else [])
      ++ ["🔄 Delegating to: " ++ subagent ++ " - " ++ description]
      ++ (if prompt ≠ "" then ["\n📝 Prompt to subagent:\n" ++ prompt] else [])
  "\n```\n" ++ joinNL parts ++ "\n```\n"

/-- The plain-prose flush at `main.py` lines 395-399, performed when a
sub-agent message arrives: if the buffer list is non-empty, strip the joined
text and, if the result is non-empty, yield it wrapped as `"\n…\n\n"`. -/
def flush_prose (buf : List String) : List String :=
  if buf = [] then []
  else
    let buffered := strip (joinAll buf)
    if buffered ≠ "" then ["\n" ++ buffered ++ "\n\n"] else []

/-- The end-of-turn flush at `main.py` lines 407-410: if the buffer list is
non-empty, strip the joined text and, if non-empty, yield it bare. -/
def final_flush (buf : List String) : List String :=
  if buf = [] then []
  else
    let buffered := strip (joinAll buf)
    if buffered ≠ "" then [buffered] else []

/-- The text collected from a content list by
`for block in content: if isinstance(block, TextBlock)` — only the `text`
payloads of `TextBlock`s, in order. -/
def collect_texts (content : List Block) : List String :=
  content.filterMap fun b =>
    match b with
    | Block.textBlock t => some t
    | _ => none

/-- One iteration of the `async for` loop of `main.py` lines 327-404, as a
function from the current buffer and the message to the new buffer and the
list of strings yielded for this message:
* a non-assistant message is skipped (line 352);
* a top-level message (`parent_tool_use_id is None`) with a `Task` block
  yields the delegation block built from the cleared buffer (lines 370-385);
* a top-level message without a `Task` block appends its `TextBlock` texts to
  the buffer and yields nothing (lines 388-391);
* a sub-agent message (`parent_tool_use_id` set) first flushes the buffer as
  plain prose, then yields its `TextBlock` texts (lines 395-404); its
  `task_info` is computed but never consulted. -/
def process_message (buf : List String) : Message → List String × List String
  | Message.other => (buf, [])
  | Message.assistant parent content =>
    let task := task_info content
    match parent with
    | none =>
      match task with
      | some (subagent, description, prompt) =>
          ([], [delegation_block buf subagent description prompt])
      | none => (buf ++ collect_texts content, [])
    | some _ => ([], flush_prose buf ++ collect_texts content)

/-- The whole turn from a given starting buffer: fold `process_message` over
the remaining messages, concatenating the yielded strings, and flush the
final buffer at end of turn (lines 406-410). -/
def chatFrom (buf : List String) : List Message → List String
  | [] => final_flush buf
  | msg :: rest =>
      let step := process_message buf msg
      step.2 ++ chatFrom step.1 rest

/-- One full turn of the `chat` endpoint: the ordered list of yielded
strings, starting from the empty `main_agent_buffer`. -/
def chat (msgs : List Message) : List String := chatFrom [] msgs

/-- The buffer contents after processing a list of messages from a given
starting buffer. -/
def bufferAfter (buf : List String) : List Message → List String
  | [] => buf
  | msg :: rest => bufferAfter (process_message buf msg).1 rest

/-- A top-level-agent text event: assistant message with no parent link and a
single text block. -/
def topTextMsg (t : String) : Message :=
  Message.assistant none [Block.textBlock t]

/-- A sub-agent text event: assistant message whose parent link names the
worker, carrying text blocks. -/
def subTextMsg (worker : String) (texts : List String) : Message :=
  Message.assistant (some worker) (texts.map Block.textBlock)

/-- A `Task` tool-invocation block delegating to `subagent` with the given
description and prompt. -/
def taskBlock (subagent description prompt : String) : Block :=
  Block.toolUse "Task"
    [("subagent_type", subagent), ("description", description), ("prompt", prompt)]

/-- A delegation event: top-level assistant message whose single block is a
`Task` tool invocation. -/
def delegMsg (subagent description prompt : String) : Message :=
  Message.assistant none [taskBlock subagent description prompt]

/-- Is a message one that line 352 of `main.py` drops? -/
def nonAssistant : Message → Bool
  | Message.other => true
  | Message.assistant _ _ => false

/-- Is a block a `Task` tool invocation? -/
def isTaskBlock : Block → Bool
  | Block.toolUse n _ => n = "Task"
  | _ => false

/-- Is a block a plain text block? -/
def isTextBlock : Block → Bool
  | Block.textBlock _ => true
  | _ => false

/-- Is `pat` an initial segment of the second character list? -/
def charsAtFront : List Char → List Char → Bool
  | [], _ => true
  | _ :: _, [] => false
  | a :: as, b :: bs => a = b && charsAtFront as bs

/-- Does `pat` occur contiguously anywhere in the character list? -/
def occursIn (pat : List Char) : List Char → Bool
  | [] => charsAtFront pat []
  | c :: rest => charsAtFront pat (c :: rest) || occursIn pat rest

/-- Modelled from the spec: one content block of a raw engine event as seen by
the classifier's text extraction — "each either an object exposing a text
field or an associative block with a text key".  The multi-shape extraction
chain itself is in repository variants absent from `src/` (`main.py` handles
only the object-with-text-field shape). -/
inductive RawBlock where
  | objBlock (text : String)
  | assocBlock (entries : List (String × String))

/-- Modelled from the spec: a raw engine event that may structurally present
several textual payload shapes at once — a direct text field, content as a
string, and content as a list of blocks. -/
structure RawEvent where
  text : Option String
  contentStr : Option String
  contentBlocks : Option (List RawBlock)

/-- Modelled from the spec: the text carried by one raw content block — the
object's text field, or the value at the `text` key of an associative
block. -/
def rawBlockText : RawBlock → Option String
  | RawBlock.objBlock t => some t
  | RawBlock.assocBlock entries => entries.lookup "text"

/-- Modelled from the spec: "Extract plain text from whichever shape is
present (direct text field; content as a string; content as a list of blocks
...) — first match wins, short-circuit.  Absence of any textual payload
yields no TextChunk." -/
def extract_text (e : RawEvent) : Option String :=
  match e.text with
  | some t => some t
  | none =>
    match e.contentStr with
    | some s => some s
    | none =>
      match e.contentBlocks with
      | some blocks => some (joinAll (blocks.filterMap rawBlockText))
      | none => none

/-- Modelled from the spec: the shared fallback conversation key used when a
caller context carries neither an authenticated identity nor a
conversation id. -/
def SHARED_FALLBACK_KEY : String := "shared"

/-- Modelled from the spec: the Conversation Key Resolver — "(a) if context
carries an authenticated identity, return `user:<id>`; (b) else if the latest
inbound message carries a caller-supplied `conversation_id` field in its
metadata, return `conv:<id>`; (c) else return the shared fallback constant."
This resolver is in repository variants absent from `src/`. -/
def resolve (authIdentity : Option String) (conversation_id : Option String) :
    String :=
  match authIdentity with
  | some i => "user:" ++ i
  | none =>
    match conversation_id with
    | some c => "conv:" ++ c
    | none => SHARED_FALLBACK_KEY

/-! ## Sanity checks on concrete streams -/

theorem sanity_delegation_stream :
    chat [topTextMsg "a", topTextMsg "b", delegMsg "X" "D" "P"]
    = ["\n```\n💭 ab\n🔄 Delegating to: X - D\n\n📝 Prompt to subagent:\nP\n```\n"] := by
  decide

theorem sanity_subagent_stream :
    chat [topTextMsg "a", subTextMsg "X" ["hello"]]
    = ["\na\n\n", "hello"] := by decide

theorem sanity_trailing_text : chat [topTextMsg " hi "] = ["hi"] := by decide

/-! ## Helper lemmas -/

theorem strip_nil : strip (joinAll []) = "" := rfl

theorem joinAll_nil_of_eq_nil (buf : List String) (h : buf = []) :
    strip (joinAll buf) = "" := by rw [h]; rfl

theorem collect_texts_map (ts : List String) :
    collect_texts (ts.map Block.textBlock) = ts := by
  induction ts with
  | nil => rfl
  | cons t ts ih => simpa [collect_texts] using ih

theorem collect_texts_filter (blocks : List Block) :
    collect_texts (blocks.filter isTextBlock) = collect_texts blocks := by
  induction blocks with
  | nil => rfl
  | cons b bs ih =>
      cases b <;> simpa [collect_texts, isTextBlock, List.filter] using ih

theorem task_step_taskBlock (acc : Option (String × String × String))
    (s d p : String) : task_step acc (taskBlock s d p) = some (s, d, p) := rfl

theorem task_step_of_not_task (acc : Option (String × String × String))
    (b : Block) (h : isTaskBlock b = false) : task_step acc b = acc := by
  cases b with
  | textBlock t => rfl
  | otherBlock => rfl
  | toolUse n input =>
      have hn : ¬ n = "Task" := by simpa [isTaskBlock] using h
      simp [task_step, hn]

theorem foldl_task_step_of_no_task (ys : List Block)
    (acc : Option (String × String × String))
    (h : ∀ b ∈ ys, isTaskBlock b = false) :
    List.foldl task_step acc ys = acc := by
  induction ys generalizing acc with
  | nil => rfl
  | cons b bs ih =>
      rw [List.foldl_cons, task_step_of_not_task acc b (h b (by simp)),
        ih acc (fun b hb => h b (by simp [hb]))]

theorem task_info_last (xs ys : List Block) (s d p : String)
    (h : ∀ b ∈ ys, isTaskBlock b = false) :
    task_info (xs ++ taskBlock s d p :: ys) = some (s, d, p) := by
  unfold task_info
  rw [List.foldl_append, List.foldl_cons, task_step_taskBlock,
    foldl_task_step_of_no_task ys _ h]

theorem task_info_singleton_text (t : String) :
    task_info [Block.textBlock t] = none := rfl

theorem process_message_topText (buf : List String) (t : String) :
    process_message buf (topTextMsg t) = (buf ++ [t], []) := rfl

theorem chatFrom_topTexts (ts : List String) (buf : List String)
    (rest : List Message) :
    chatFrom buf (ts.map topTextMsg ++ rest) = chatFrom (buf ++ ts) rest := by
  induction ts generalizing buf with
  | nil => simp
  | cons t ts ih =>
      simp only [List.map_cons, List.cons_append, chatFrom,
        process_message_topText, List.nil_append, List.append_eq]
      rw [ih (buf ++ [t])]
      simp

theorem bufferAfter_append (buf : List String) (xs ys : List Message) :
    bufferAfter buf (xs ++ ys) = bufferAfter (bufferAfter buf xs) ys := by
  induction xs generalizing buf with
  | nil => rfl
  | cons m ms ih =>
      simp only [List.cons_append, bufferAfter]
      exact ih _

theorem buf_ne_nil_of_strip_ne (buf : List String)
    (h : strip (joinAll buf) ≠ "") : buf ≠ [] := by
  intro hnil
  exact h (joinAll_nil_of_eq_nil buf hnil)

theorem flush_prose_of_ne (buf : List String)
    (h : strip (joinAll buf) ≠ "") :
    flush_prose buf = ["\n" ++ strip (joinAll buf) ++ "\n\n"] := by
  have hne := buf_ne_nil_of_strip_ne buf h
  simp [flush_prose, hne, h]

theorem final_flush_of_ne (buf : List String)
    (h : strip (joinAll buf) ≠ "") :
    final_flush buf = [strip (joinAll buf)] := by
  have hne := buf_ne_nil_of_strip_ne buf h
  simp [final_flush, hne, h]

/-! ## Claim theorems -/

/-- C1: for every turn whose classified event sequence contains top-level
text chunks followed by a delegation request naming worker `X` with
description `D`, the emitter produces exactly one fenced block containing the
buffered top-level text concatenated in arrival order (included only if
non-empty after stripping), then the worker name and description, then the
full task prompt text only if the prompt string was non-empty; this block
appears before anything produced for the remaining events (in particular
before any sub-agent text). -/
theorem C1_delegation_flush_order (ts : List String) (X D P : String)
    (rest : List Message) :
    chat (ts.map topTextMsg ++ delegMsg X D P :: rest)
      = ("\n```\n"
          ++ joinNL ((if strip (joinAll ts) ≠ "" then ["💭 " ++ strip (joinAll ts)] else [])
              ++ ["🔄 Delegating to: " ++ X ++ " - " ++ D]
              ++ (if P ≠ "" then ["\n📝 Prompt to subagent:\n" ++ P] else []))
          ++ "\n```\n")
        :: chatFrom [] rest := by
  unfold chat
  rw [chatFrom_topTexts]
  have hstep : process_message ts (delegMsg X D P)
      = ([], [delegation_block ts X D P]) := rfl
  simp only [List.nil_append, chatFrom, hstep]
  rfl

/-- C2: when a sub-agent text chunk arrives while the presentation buffer is
non-empty (its stripped join non-blank), the buffered top-level text is
emitted first as plain prose with no fenced wrapper, immediately before the
sub-agent's text, and the sub-agent's text follows verbatim and unwrapped in
arrival order. -/
theorem C2_subagent_prose_flush (ts : List String) (w : String)
    (subTexts : List String) (rest : List Message)
    (h : strip (joinAll ts) ≠ "") :
    chat (ts.map topTextMsg ++ subTextMsg w subTexts :: rest)
      = ("\n" ++ strip (joinAll ts) ++ "\n\n") :: (subTexts ++ chatFrom [] rest) := by
  unfold chat
  rw [chatFrom_topTexts]
  have hstep : process_message ts (subTextMsg w subTexts)
      = ([], flush_prose ts ++ collect_texts (subTexts.map Block.textBlock)) := rfl
  simp only [List.nil_append, chatFrom, hstep, collect_texts_map,
    flush_prose_of_ne ts h]
  simp

theorem C2_subagent_prose_flush_witness :
    strip (joinAll ["a"]) ≠ ""
  ∧ chat (["a"].map topTextMsg ++ subTextMsg "X" ["hello"] :: [])
      = ("\n" ++ strip (joinAll ["a"]) ++ "\n\n") :: (["hello"] ++ chatFrom [] []) :=
  ⟨by decide, C2_subagent_prose_flush ["a"] "X" ["hello"] [] (by decide)⟩

/-- C3 counterexample: a top-level-agent message carrying a plain-text block
alongside a `Task` delegation block does NOT surface the text through the
normal text path — the turn's entire output is the single delegation block
and the text `"hello"` occurs nowhere in it.  This refutes the claim that
both are surfaced. -/
theorem C3_counterexample :
    chat [Message.assistant none
        [Block.textBlock "hello", taskBlock "brief-analyzer" "analyze" "go"]]
      = ["\n```\n🔄 Delegating to: brief-analyzer - analyze\n\n📝 Prompt to subagent:\ngo\n```\n"]
  ∧ occursIn "hello".data
      ("\n```\n🔄 Delegating to: brief-analyzer - analyze\n\n📝 Prompt to subagent:\ngo\n```\n").data
      = false := by
  constructor
  · decide
  · decide

/-- C3 amended: for every top-level-agent message containing a plain-text
block alongside a `Task` delegation block, only the delegation record is
produced; the message's own text block is discarded — the output is the
delegation block built from the previously buffered text alone, independent
of the message's text block, followed by the processing of the remaining
events from an empty buffer. -/
theorem C3_amended_text_discarded (buf : List String) (t s d p : String)
    (rest : List Message) :
    chatFrom buf
        (Message.assistant none [Block.textBlock t, taskBlock s d p] :: rest)
      = delegation_block buf s d p :: chatFrom [] rest := by
  have hstep : process_message buf
        (Message.assistant none [Block.textBlock t, taskBlock s d p])
      = ([], [delegation_block buf s d p]) := rfl
  simp only [chatFrom, hstep]
  rfl

/-- C4: events that are not assistant messages (internal replay messages,
raw tool-result echoes, and other engine events) are silently dropped: for
every event stream and every buffer state, removing them leaves the emitted
output unchanged — so they never contribute any fragment, under any
ordering.  (Processing is a total function by construction, so no event can
raise an error or terminate the stream.) -/
theorem C4_non_assistant_dropped (buf : List String) (msgs : List Message) :
    chatFrom buf (msgs.filter fun m => !(nonAssistant m)) = chatFrom buf msgs := by
  induction msgs generalizing buf with
  | nil => rfl
  | cons m rest ih =>
      cases m with
      | other =>
          simpa [List.filter, nonAssistant, chatFrom, process_message]
            using ih buf
      | assistant parent content =>
          have hf : List.filter (fun m => !(nonAssistant m))
                (Message.assistant parent content :: rest)
              = Message.assistant parent content
                  :: List.filter (fun m => !(nonAssistant m)) rest := by
            simp [List.filter, nonAssistant]
          rw [hf]
          simp only [chatFrom]
          rw [ih]

/-- C5: a turn that ends with a non-empty presentation buffer (stripped join
non-blank) and no further events emits the buffered remainder as plain prose
exactly once: the output of the trailing top-level text events is exactly the
one bare stripped string, with no fenced wrapper and no duplication. -/
theorem C5_end_of_turn_flush (buf ts : List String)
    (h : strip (joinAll (buf ++ ts)) ≠ "") :
    chatFrom buf (ts.map topTextMsg) = [strip (joinAll (buf ++ ts))] := by
  have hrw : ts.map topTextMsg = ts.map topTextMsg ++ [] := by simp
  rw [hrw, chatFrom_topTexts]
  simp only [chatFrom]
  exact final_flush_of_ne _ h

theorem C5_end_of_turn_flush_witness :
    strip (joinAll ([] ++ ["hi"])) ≠ ""
  ∧ chatFrom [] (["hi"].map topTextMsg) = [strip (joinAll ([] ++ ["hi"]))] :=
  ⟨by decide, C5_end_of_turn_flush [] ["hi"] (by decide)⟩

/-- C6: the presentation buffer is emptied at every flush point — when a
top-level delegation is observed and when sub-agent output begins — so the
buffer state at any point of a turn depends only on the events since the most
recent flush point: everything before the flush point is irrelevant to the
buffer. -/
theorem C6_buffer_cleared_at_flush (pre suffix : List Message)
    (bs cblocks : List Block) (s d p w : String) :
    bufferAfter [] (pre ++ Message.assistant none (bs ++ [taskBlock s d p]) :: suffix)
        = bufferAfter [] suffix
  ∧ bufferAfter [] (pre ++ Message.assistant (some w) cblocks :: suffix)
        = bufferAfter [] suffix := by
  constructor
  · rw [bufferAfter_append]
    have ht : task_info (bs ++ [taskBlock s d p]) = some (s, d, p) :=
      task_info_last bs [] s d p (by simp)
    have hclear : ∀ B : List String,
        (process_message B (Message.assistant none (bs ++ [taskBlock s d p]))).1
          = [] := by
      intro B
      simp [process_message, ht]
    simp only [bufferAfter, hclear]
  · rw [bufferAfter_append]
    have hclear : ∀ B : List String,
        (process_message B (Message.assistant (some w) cblocks)).1 = [] := by
      intro B
      rfl
    simp only [bufferAfter, hclear]

/-- C7: modelled from the spec — when a raw event structurally presents more
than one textual payload shape, extraction follows a strict precedence with
short-circuit: a direct text field wins over content-as-a-string, which wins
over content-as-a-list-of-blocks; only the first matching shape's text is
extracted. -/
theorem C7_extraction_precedence (e : RawEvent) :
    (∀ t, e.text = some t → extract_text e = some t)
  ∧ (∀ s, e.text = none → e.contentStr = some s → extract_text e = some s)
  ∧ (∀ bs, e.text = none → e.contentStr = none → e.contentBlocks = some bs →
      extract_text e = some (joinAll (bs.filterMap rawBlockText))) := by
  refine ⟨fun t ht => ?_, fun s ht hs => ?_, fun bs ht hs hb => ?_⟩
  · simp [extract_text, ht]
  · simp [extract_text, ht, hs]
  · simp [extract_text, ht, hs, hb]

theorem C7_extraction_precedence_witness :
    extract_text ⟨some "a", some "b", some [RawBlock.objBlock "c"]⟩ = some "a"
  ∧ extract_text ⟨none, some "b", some [RawBlock.objBlock "c"]⟩ = some "b"
  ∧ extract_text ⟨none, none,
        some [RawBlock.objBlock "c", RawBlock.assocBlock [("text", "d")]]⟩
      = some "cd" := by
  refine ⟨(C7_extraction_precedence _).1 "a" rfl, ?_, ?_⟩
  · exact (C7_extraction_precedence _).2.1 "b" rfl rfl
  · have h := (C7_extraction_precedence
      (⟨none, none, some [RawBlock.objBlock "c", RawBlock.assocBlock [("text", "d")]]⟩ :
        RawEvent)).2.2 _ rfl rfl rfl
    simpa [joinAll, rawBlockText] using h

/-- C8: modelled from the spec — conversation-key resolution follows the
stated priority: an authenticated identity resolves to the `user:<id>` form
even when a conversation id is also present; without an authenticated
identity but with a caller-supplied conversation id it resolves to
`conv:<id>`; otherwise it resolves to the shared fallback constant. -/
theorem C8_key_resolution_priority :
    (∀ i c, resolve (some i) (some c) = "user:" ++ i)
  ∧ (∀ i, resolve (some i) none = "user:" ++ i)
  ∧ (∀ c, resolve none (some c) = "conv:" ++ c)
  ∧ resolve none none = SHARED_FALLBACK_KEY := by
  exact ⟨fun i c => rfl, fun i => rfl, fun c => rfl, rfl⟩

/-- C9: a `Task` delegation block inside a message that carries a sub-agent
origin (non-empty parent link) never produces a delegation block in the
output: the output is unchanged when every non-text block of the message is
removed, and equals the plain-prose buffer flush followed by the message's
text blocks alone — the fenced delegation formatting applies exclusively to
top-level-agent messages. -/
theorem C9_subagent_task_ignored (buf : List String) (w : String)
    (blocks : List Block) (rest : List Message) :
    chatFrom buf (Message.assistant (some w) blocks :: rest)
        = chatFrom buf (Message.assistant (some w) (blocks.filter isTextBlock) :: rest)
  ∧ chatFrom buf (Message.assistant (some w) blocks :: rest)
        = flush_prose buf ++ collect_texts blocks ++ chatFrom [] rest := by
  have h2 : ∀ bl : List Block,
      chatFrom buf (Message.assistant (some w) bl :: rest)
        = flush_prose buf ++ collect_texts bl ++ chatFrom [] rest := by
    intro bl
    have hstep : process_message buf (Message.assistant (some w) bl)
        = ([], flush_prose buf ++ collect_texts bl) := rfl
    simp [chatFrom, hstep]
  exact ⟨by rw [h2, h2, collect_texts_filter], h2 blocks⟩

/-- C10: if a single top-level-agent message contains more than one `Task`
tool-invocation block, exactly one delegation block is emitted and it carries
the payload of the last such block in the message's block order — the output
does not depend on the earlier blocks at all. -/
theorem C10_last_task_wins (buf : List String) (xs ys : List Block)
    (s d p : String) (rest : List Message)
    (h : ∀ b ∈ ys, isTaskBlock b = false) :
    chatFrom buf (Message.assistant none (xs ++ taskBlock s d p :: ys) :: rest)
      = delegation_block buf s d p :: chatFrom [] rest := by
  have ht := task_info_last xs ys s d p h
  have hstep : process_message buf
        (Message.assistant none (xs ++ taskBlock s d p :: ys))
      = ([], [delegation_block buf s d p]) := by
    simp [process_message, ht]
  simp [chatFrom, hstep]

theorem C10_last_task_wins_witness :
    chatFrom []
        (Message.assistant none
          ([taskBlock "a" "da" "pa"] ++ taskBlock "b" "db" "pb" :: [Block.textBlock "t"])
          :: [])
      = delegation_block [] "b" "db" "pb" :: chatFrom [] [] :=
  C10_last_task_wins [] [taskBlock "a" "da" "pa"] [Block.textBlock "t"]
    "b" "db" "pb" [] (by decide)
